import Mathlib

set_option maxHeartbeats 1000000

/-!
Verification development for the Data-Clustering-Visualizer readiness and
clustering-execution pipeline (`data_clustering_visualizer.py`).  The Python
fragments relevant to the claims are shallowly embedded as executable Lean
definitions (state mutation becomes explicit state passing; numpy arrays
become lists of lists; parsed numeric cells become an explicit `Cell` type
with a NaN constructor).  Theorems then relate those definitions to the
specification's statements.
-/

/-- The boolean condition flags of `DataClusteringVisualizerInterface`, as
initialised in `__init__` and mutated by the various handlers.  A value of
this structure is one snapshot of the flags feeding the readiness gate. -/
structure ReadinessFlags where
  data_imported : Bool
  file_data_error : Bool
  data_non_numbers : Bool
  feature_values_non_numbers_entered : Bool
  feature_values_non_numbers_entered_not_applicable : Bool
  clustering_algorithm_selected : Bool
  num_clusters_entered : Bool
  num_clusters_not_applicable : Bool
  dimension_selected : Bool
deriving DecidableEq

/-- Embedding of the guard of the `if` in `display_data_clustering_enable`
(source line 770), grouped exactly as the Python expression is. -/
def display_data_clustering_enable_cond (f : ReadinessFlags) : Bool :=
  f.data_imported && !f.file_data_error &&
    (!f.data_non_numbers || f.feature_values_non_numbers_entered ||
      f.feature_values_non_numbers_entered_not_applicable) &&
    (f.clustering_algorithm_selected &&
      (f.num_clusters_entered || f.num_clusters_not_applicable)) &&
    f.dimension_selected

/-- The readiness formula exactly as the specification writes it in §4.4
(`ready = fileLoaded AND NOT loadError AND ... AND dimensionalitySelected`),
kept as a separate definition so that agreement with the source guard is a
theorem, not a definition. -/
def ready_spec (f : ReadinessFlags) : Bool :=
  f.data_imported &&
    !f.file_data_error &&
    (!f.data_non_numbers || f.feature_values_non_numbers_entered ||
      f.feature_values_non_numbers_entered_not_applicable) &&
    f.clustering_algorithm_selected &&
    (f.num_clusters_entered || f.num_clusters_not_applicable) &&
    f.dimension_selected

/-- A cell of the numerically parsed table `file_data` produced by
`np.genfromtxt(data_file, delimiter=",")`: a cell that parses as a number
keeps its value, a cell that does not becomes NaN. -/
inductive Cell where
  | nan : Cell
  | num : Int → Cell
deriving DecidableEq

/-- Python/numpy truthiness of one parsed cell, as used by
`self.file_data.any()`: NaN is truthy, a number is truthy iff nonzero. -/
def cellTruthy : Cell → Bool
  | Cell.nan => true
  | Cell.num z => z != 0

/-- The error classification of `load_data` (source lines 240-274), one
constructor per error label text plus `ok` for the accepting branch. -/
inductive LoadResult where
  | malformedRow : LoadResult
  | emptyFile : LoadResult
  | insufficientRows : LoadResult
  | insufficientColumns : LoadResult
  | ok : LoadResult
deriving DecidableEq

/-- Row-length consistency of the parsed table; `np.genfromtxt` raises the
"columns instead of" `ValueError` exactly on ragged input. -/
def isRectangular (table : List (List Cell)) : Bool :=
  match table with
  | [] => true
  | r :: rs => rs.all (fun row => row.length == r.length)

/-- Embedding of the error cascade of `load_data` (source lines 240-274).
The branch order mirrors the source: ragged rows first (the `ValueError`
handler), then `not self.file_data.any()` ("The file does not contain any
data."), then `len(data_file.readlines()) == 1 or len(shape) == 0` (a
single data point, "at least two data points"), then `len(shape) == 1`
(a single column, "at least two data points and two features"), else the
data is accepted (`data_imported = True`, `file_data_error = False`). -/
def load_data_check (table : List (List Cell)) : LoadResult :=
  if !(isRectangular table) then LoadResult.malformedRow
  else if !(table.any (fun row => row.any cellTruthy)) then LoadResult.emptyFile
  else if table.length == 1 then LoadResult.insufficientRows
  else if (table.headD []).length == 1 then LoadResult.insufficientColumns
  else LoadResult.ok

/-- The slice of interface state that `process_data` manipulates when it
decides whether three-dimensional display is feasible (source lines
296-299 and 479-489). -/
structure DimState where
  button3D_enabled : Bool
  button3D_checked : Bool
  display_dimension : String
  dimension_selected : Bool
deriving DecidableEq

/-- Embedding of the dimension-feasibility fragment of `process_data`:
line 298-299 first re-enables the 3D button, then lines 481-489 run
`if 2 in self.attribute_data_all.shape:` — `rows` and `cols` are the shape
of `attribute_data_all` (class column already removed, no exclusion policy
applied) — unchecking a checked 3D button, clearing the selection and
disabling the button when 2 occurs in the shape. -/
def process_data_dim (rows cols : Nat) (s : DimState) : DimState :=
  let s1 : DimState := { s with button3D_enabled := true }
  if rows == 2 || cols == 2 then
    let s2 : DimState :=
      if s1.button3D_checked then
        { s1 with button3D_checked := false, display_dimension := "",
                  dimension_selected := false }
      else s1
    { s2 with button3D_enabled := false }
  else s1

/-- Numeric value of a digit string, as `int(...)` reads the cluster-count
text admitted by the `QIntValidator`. -/
def digitsToNat (text : List Char) : Nat :=
  text.foldl (fun acc c => acc * 10 + (c.toNat - '0'.toNat)) 0

/-- Embedding of the condition of `num_clusters_changed` (source line 749):
`self.num_clusters_input.text() and not self.num_clusters_input.text() == "0"
and int(self.num_clusters_input.text()) <= self.attribute_data_all.shape[0]`,
where `rows` is `attribute_data_all.shape[0]`, the row count of the table
before any exclusion policy. -/
def num_clusters_changed_cond (text : List Char) (rows : Nat) : Bool :=
  !(text.isEmpty) && text != ['0'] && digitsToNat text <= rows

/-- The call produced for one clustering algorithm by the dispatch chain of
`display_data_clustering` (source lines 797-839): which backend constructor
is invoked and with which parameters. -/
inductive AlgCall where
  | kmeans : Nat → AlgCall
  | meanShift : AlgCall
  | dbscan : AlgCall
  | hdbscan : Nat → AlgCall
  | gaussianMixture : Nat → AlgCall
  | agglomerative : Nat → AlgCall
  | affinityPropagation : AlgCall
  | spectral : Nat → AlgCall
  | spectralDefault : AlgCall
  | birch : AlgCall
  | optics : Nat → AlgCall
deriving DecidableEq

/-- Embedding of the `if data_clustering_algorithm == ...` dispatch chain of
`display_data_clustering` (source lines 797-839).  The `Nat` arguments of
`AlgCall.hdbscan` and `AlgCall.optics` record the `min_samples=` keyword
written at the call site; `spectral` records the clamped cluster count used
when the input has fewer than 8 rows. -/
def display_data_clustering_dispatch (alg : String) (num_clusters rows : Nat) :
    Option AlgCall :=
  if alg = "K-Means" then some (AlgCall.kmeans num_clusters)
  else if alg = "Mean Shift" then some AlgCall.meanShift
  else if alg = "DBSCAN" then some AlgCall.dbscan
  else if alg = "HDBSCAN" then some (AlgCall.hdbscan 2)
  else if alg = "Gaussian Mixture Models" then some (AlgCall.gaussianMixture num_clusters)
  else if alg = "Agglomerative" then some (AlgCall.agglomerative num_clusters)
  else if alg = "Affinity Propagation" then some AlgCall.affinityPropagation
  else if alg = "Spectral" then
    (if rows < 8 then some (AlgCall.spectral rows) else some AlgCall.spectralDefault)
  else if alg = "BIRCH" then some AlgCall.birch
  else if alg = "OPTICS" then some (AlgCall.optics 2)
  else none

/-- The ten selectable algorithm names, in the order the combo box lists
them (source line 86, the empty entry excluded). -/
def algorithmNames : List String :=
  ["K-Means", "Mean Shift", "DBSCAN", "HDBSCAN", "Gaussian Mixture Models",
   "Agglomerative", "Affinity Propagation", "Spectral", "BIRCH", "OPTICS"]

/-- The fixed minimum-samples parameter carried by a dispatched call, when
that call has one. -/
def minSamplesOf : AlgCall → Option Nat
  | AlgCall.hdbscan m => some m
  | AlgCall.optics m => some m
  | _ => none

/-- Whether the dispatch table invokes the named algorithm with a fixed
minimum-samples parameter of 2 (the parameter does not depend on the
dispatch inputs, as the amended C8 theorem also states). -/
def usesFixedMinSamplesTwo (alg : String) : Bool :=
  match display_data_clustering_dispatch alg 0 0 with
  | some call => minSamplesOf call == some 2
  | none => false

/-- Functional update of one list position; positions outside the list are
left unchanged (the embedding of an in-place numpy element write). -/
def updateAt {α : Type} (l : List α) (i : Nat) (f : α → α) : List α :=
  match l, i with
  | [], _ => []
  | x :: xs, 0 => f x :: xs
  | x :: xs, n + 1 => x :: updateAt xs n f

/-- Read a matrix cell, `none` when the position is out of bounds. -/
def getCell {α : Type} (A : List (List α)) (r c : Nat) : Option α :=
  A[r]?.bind (fun row => row[c]?)

/-- Write a matrix cell in place (no-op out of bounds). -/
def setCell {α : Type} (A : List (List α)) (r c : Nat) (v : α) : List (List α) :=
  updateAt A r (fun row => updateAt row c (fun _ => v))

/-- One entry of the non-numeric catalog: the source stores it as the
4-list `[col, [row, ...], value, assigned]` appended to
`non_number_values_file[col]` (source lines 376, 387, 397, 409). -/
structure NNEntry where
  col : Nat
  rows : List Nat
  raw : String
  mapped : Option String
deriving DecidableEq

/-- The mutable session state read and written by
`data_non_numbers_option_changed`: the raw attribute table
`attribute_data_all` (strings, class column already removed) and the
non-numeric catalog `non_number_values` (which aliases
`non_number_values_file` in the source, line 412). -/
structure SessionState where
  attribute_data_all : List (List String)
  non_number_values : List (List NNEntry)
deriving DecidableEq

/-- The writes of the zero-fill policy for one catalog entry: source lines
524-527, `for row in value[1]: self.attribute_data[row, value[0]] = 0`,
where `attribute_data` aliases `attribute_data_all`. -/
def zeroFillEntry (A : List (List String)) (e : NNEntry) : List (List String) :=
  e.rows.foldl (fun a r => setCell a r e.col "0") A

/-- The full zero-fill pass of policy 1 (source lines 522-529): every
catalogued non-numeric occurrence is overwritten with the string `"0"`
in the (aliased) raw table. -/
def zeroFill (A : List (List String)) (nnv : List (List NNEntry)) :
    List (List String) :=
  nnv.foldl (fun acc feature => feature.foldl zeroFillEntry acc) A

/-- Whether some catalog entry records position `(r, c)` — the positions
hit by the zero-fill writes. -/
def zeroWritePos (nnv : List (List NNEntry)) (r c : Nat) : Bool :=
  nnv.any (fun feature => feature.any (fun e => e.col == c && e.rows.contains r))

/-- The rows collected for removal by policy 3 (source lines 595-598):
every row index held by any catalog entry. -/
def rowsWithNonNumbers (nnv : List (List NNEntry)) : List Nat :=
  nnv.foldl (fun acc feature =>
    feature.foldl (fun acc2 e => acc2 ++ e.rows) acc) []

/-- `np.delete(A, rs, 0)`: keep the rows whose index is not listed (the
source first passes `rs` through `np.unique`, which does not change
membership). -/
def deleteRowsIn (A : List (List String)) (rs : List Nat) :
    List (List String) :=
  (A.enum.filter (fun p => !(rs.contains p.1))).map (fun p => p.2)

/-- The matrix built by policy 3, row exclusion (source lines 591-602),
before the `astype(float)` cast. -/
def policy3Matrix (A : List (List String)) (nnv : List (List NNEntry)) :
    List (List String) :=
  deleteRowsIn A (rowsWithNonNumbers nnv)

/-- The column of a catalog group as the source reads it: `feature[0][0]`,
the column of the group's first entry (groups are nonempty in states the
source builds, the default 0 covers the others). -/
def headColOf (feature : List NNEntry) : Nat :=
  match feature with
  | [] => 0
  | e :: _ => e.col

/-- The columns collected for removal by policy 4 (source lines 616-617). -/
def colsWithNonNumbers (nnv : List (List NNEntry)) : List Nat :=
  nnv.foldl (fun acc feature => acc ++ [headColOf feature]) []

/-- `np.delete(A, cs, 1)`: keep the columns whose index is not listed. -/
def deleteColsIn (A : List (List String)) (cs : List Nat) :
    List (List String) :=
  A.map (fun row => (row.enum.filter (fun p => !(cs.contains p.1))).map (fun p => p.2))

/-- The matrix built by policy 4, column exclusion (source lines 612-620),
before the `astype(float)` cast. -/
def policy4Matrix (A : List (List String)) (nnv : List (List NNEntry)) :
    List (List String) :=
  deleteColsIn A (colsWithNonNumbers nnv)

/-- The index pairs of catalogued non-numeric occurrences as policy 2
collects them (source line 541): `(row, col[0][0])` for every row of every
entry of every group. -/
def nonNumberIndices (nnv : List (List NNEntry)) : List (Nat × Nat) :=
  nnv.foldl (fun acc feature =>
    feature.foldl (fun acc2 e => acc2 ++ e.rows.map (fun r => (r, headColOf feature))) acc) []

/-- Policy 2's fresh array after the copy loop (source lines 540-545):
`np.empty` cells at catalogued positions stay unset (modelled `none`),
every other cell is copied from the raw table. -/
def policy2Base (A : List (List String)) (idxs : List (Nat × Nat)) :
    List (List (Option String)) :=
  A.enum.map (fun rp =>
    rp.2.enum.map (fun cp => if (rp.1, cp.1) ∈ idxs then none else some cp.2))

/-- Python truthiness of a catalog entry's assigned value `value[3]`:
`None` and the empty string are falsy. -/
def pyTruthy : Option String → Bool
  | none => false
  | some s => !s.isEmpty

/-- Write one value at every row of one entry's row set (the inner loops of
source lines 549-555). -/
def writeEntryRows (M : List (List (Option String))) (e : NNEntry)
    (v : Option String) : List (List (Option String)) :=
  e.rows.foldl (fun m r => setCell m r e.col v) M

/-- Policy 2's assignment loop (source lines 547-555): an entry with a
truthy assigned value writes that value at all of its rows, any other entry
writes `None` there. -/
def applyMappings (M : List (List (Option String)))
    (nnv : List (List NNEntry)) : List (List (Option String)) :=
  nnv.foldl (fun acc feature =>
    feature.foldl (fun m e =>
      if pyTruthy e.mapped then writeEntryRows m e e.mapped
      else writeEntryRows m e none) acc) M

/-- The matrix built by policy 2, manual mapping (source lines 539-555),
before any `astype(float)` cast. -/
def policy2Matrix (A : List (List String)) (nnv : List (List NNEntry)) :
    List (List (Option String)) :=
  applyMappings (policy2Base A (nonNumberIndices nnv)) nnv

/-- What one run of `data_non_numbers_option_changed` builds: nothing (the
empty selection), a string matrix (policies 1, 3, 4) or an option-valued
matrix (policy 2, whose cells may be unset).  The subsequent
`astype(float)` casts are deterministic functions of these matrices, so
matrix equality here gives bit-for-bit equality of the float matrices. -/
inductive BuiltMatrix where
  | noBuild : BuiltMatrix
  | strMat : List (List String) → BuiltMatrix
  | optMat : List (List (Option String)) → BuiltMatrix
deriving DecidableEq

/-- Embedding of `data_non_numbers_option_changed` (source lines 506-627)
restricted to the data it reads and writes: combo index `idx` selects the
policy; policy 1 writes through the `attribute_data = attribute_data_all`
alias and therefore updates the session table, the other branches leave the
session state untouched (`np.delete` and `np.empty` allocate fresh
arrays). -/
def data_non_numbers_option_changed_step (idx : Nat) (s : SessionState) :
    SessionState × BuiltMatrix :=
  match idx with
  | 0 => (s, BuiltMatrix.noBuild)
  | 1 =>
    let A := zeroFill s.attribute_data_all s.non_number_values
    ({ s with attribute_data_all := A }, BuiltMatrix.strMat A)
  | 2 => (s, BuiltMatrix.optMat (policy2Matrix s.attribute_data_all s.non_number_values))
  | 3 => (s, BuiltMatrix.strMat (policy3Matrix s.attribute_data_all s.non_number_values))
  | 4 => (s, BuiltMatrix.strMat (policy4Matrix s.attribute_data_all s.non_number_values))
  | _ + 5 => (s, BuiltMatrix.noBuild)

/-- Embedding of Python `str.isnumeric` as the source applies it to cell
text, restricted to ASCII data: nonempty and all decimal digits. -/
def strIsNumeric (l : List Char) : Bool :=
  !l.isEmpty && l.all Char.isDigit

/-- `value.replace(c, "", 1)`: remove the first occurrence of one
character. -/
def removeFirst (c : Char) : List Char → List Char
  | [] => []
  | x :: xs => if x == c then xs else x :: removeFirst c xs

/-- The non-numeric classification of one (nonempty, non-filler) cell value
in `process_data` (source lines 367-397): a leading `-` or `+` branch strips
that sign and one dot and asks `str.isnumeric`; the default branch strips
one dot from the whole value.  `true` means the cell is catalogued as
non-numeric. -/
def cellNonNumeric (l : List Char) : Bool :=
  match l with
  | [] => false
  | c :: rest =>
    if c == '-' then !strIsNumeric (removeFirst '.' rest)
    else if c == '+' then !strIsNumeric (removeFirst '.' rest)
    else !strIsNumeric (removeFirst '.' (c :: rest))

/-- Strip one leading sign character, as the specification's §4.2 sentence
reads. -/
def stripLeadingSign : List Char → List Char
  | [] => []
  | c :: rest => if c == '-' || c == '+' then rest else c :: rest

/-- A valid unsigned numeral in the specification's sense: decimal digits
with at most one decimal point and at least one digit. -/
def validUnsignedNumeral (l : List Char) : Bool :=
  (l.count '.' ≤ 1 : Bool) && l.any Char.isDigit &&
    l.all (fun c => c.isDigit || c == '.')

/-- The specification's §4.2 classification: non-numeric iff after
stripping one leading sign character the remainder is not a valid unsigned
numeral. -/
def specNonNumericCell (l : List Char) : Bool :=
  !validUnsignedNumeral (stripLeadingSign l)

/-- The filler/blank test of the catalog builder, source line 366: the
else-branch is taken exactly when the raw cell text is falsy (blank) or one
of the two textual forms of the `-99999` filling sentinel. -/
def fillerOrBlank (v : String) : Bool :=
  v == "" || v == "-99999" || v == "-99999.0"

/-- Append a row index to the first catalog entry carrying the given raw
value, `none` when no entry carries it (the `for feature_value in ...`
search with `repeated_value`, source lines 369-374). -/
def addRowToEntry : List NNEntry → String → Nat → Option (List NNEntry)
  | [], _, _ => none
  | e :: es, v, r =>
    if e.raw == v then some ({ e with rows := e.rows ++ [r] } :: es)
    else (addRowToEntry es v r).map (fun es2 => e :: es2)

/-- Catalogue one occurrence of raw value `v` at row `r` of column `c`:
merge into the first entry with the same raw value, else append a fresh
entry `[c, [r], v, None]` (source lines 369-397 and 402-409). -/
def catAppend (es : List NNEntry) (c : Nat) (v : String) (r : Nat) :
    List NNEntry :=
  match addRowToEntry es v r with
  | some es2 => es2
  | none => es ++ [{ col := c, rows := [r], raw := v, mapped := none }]

/-- One iteration of the catalog-building row loop for column `c` (source
lines 363-409): a non-filler value is catalogued iff it classifies as
non-numeric; a filler/blank value is first blanked to `""` and then
catalogued under the empty token. -/
def non_number_catalog_step (c : Nat) (es : List NNEntry) (rv : Nat × String) :
    List NNEntry :=
  if !fillerOrBlank rv.2 then
    (if cellNonNumeric rv.2.data then catAppend es c rv.2 rv.1 else es)
  else catAppend es c "" rv.1

/-- Column `c` of the raw table, as `attribute_data_all[:, col]` slices
it. -/
def columnOf (A : List (List String)) (c : Nat) : List String :=
  A.map (fun row => row.getD c "")

/-- The catalog group built for one column: the row loop of source lines
363-409 folded over the enumerated column. -/
def buildColumnCatalog (c : Nat) (col : List String) : List NNEntry :=
  col.enum.foldl (non_number_catalog_step c) []

/-- The effect on `attribute_data_all` of the catalog-building pass: the
else-branch write `self.attribute_data_all[row, col] = ""` (source line
400) blanks exactly the filler/blank cells, every other cell is left as
read. -/
def blankFillerCells (A : List (List String)) : List (List String) :=
  A.map (fun row => row.map (fun v => if fillerOrBlank v then "" else v))

/-- The full `non_number_values_file` structure after the scan (source lines
357-411): one group per column in column order, empty groups dropped by the
final list comprehension. -/
def process_data_non_number_values (A : List (List String)) :
    List (List NNEntry) :=
  ((List.range ((A.headD []).length)).map
    (fun c => buildColumnCatalog c (columnOf A c))).filter (fun g => !g.isEmpty)

/-- Match attempt for the first cleanup pattern of `save_data_clustering`
(source lines 1088, 1112): Python `\.0*(,)|\.0*$` at the head of the text.
The first alternative matches a dot, the maximal run of zeros and a comma
(kept, as group 1); the second matches a dot and zeros at end of text
(replacement empty).  Returns the replacement and the text after the
match. -/
def tryMatchDotZeros (l : List Char) : Option (List Char × List Char) :=
  match l with
  | '.' :: rest =>
    (match rest.dropWhile (fun ch => ch == '0') with
     | ',' :: rest2 => some ([','], rest2)
     | [] => some ([], [])
     | _ => none)
  | _ => none

/-- Drop the trailing run of `'0'` characters. -/
def stripTrailingZeroChars (l : List Char) : List Char :=
  (l.reverse.dropWhile (fun ch => ch == '0')).reverse

/-- Match attempt for the second cleanup pattern of `save_data_clustering`
(source lines 1089, 1113): Python
`(\.[0-9]*[1-9]+)0+(,)|(\.[0-9]*[1-9]+)0+$` replaced by `\1\2`.  The
digit run after the dot must end in at least one zero and keep at least one
digit once those zeros are stripped.  In the comma alternative groups 1-2
reproduce the dot, the kept digits and the comma; in the end-of-text
alternative the match is captured by groups 3-4, which the replacement
`\1\2` does not reference, so the whole match is replaced by the empty
string (Python substitutes unmatched groups with `""`). -/
def tryMatchTrailingZeros (l : List Char) : Option (List Char × List Char) :=
  match l with
  | '.' :: rest =>
    let ds := rest.takeWhile Char.isDigit
    let rest2 := rest.dropWhile Char.isDigit
    let t := stripTrailingZeroChars ds
    if t.length < ds.length && !t.isEmpty then
      (match rest2 with
       | ',' :: rest3 => some ('.' :: (t ++ [',']), rest3)
       | [] => some ([], [])
       | _ => none)
    else none
  | _ => none

/-- `re.sub` driver: scan left to right, replace each match and continue
after it, move one character on failure.  Both patterns consume at least
one character per match, so fuel equal to the text length suffices. -/
def reSubFuel (tm : List Char → Option (List Char × List Char)) :
    Nat → List Char → List Char
  | 0, l => l
  | _ + 1, [] => []
  | fuel + 1, c :: rest =>
    match tm (c :: rest) with
    | some (repl, after) => repl ++ reSubFuel tm fuel after
    | none => c :: reSubFuel tm fuel rest

/-- First cleanup substitution applied to one serialized row. -/
def re_sub_dot_zeros (l : List Char) : List Char :=
  reSubFuel tryMatchDotZeros l.length l

/-- Second cleanup substitution applied to one serialized row. -/
def re_sub_trailing_zeros (l : List Char) : List Char :=
  reSubFuel tryMatchTrailingZeros l.length l

/-- The canonicalization `save_data_clustering` applies to one data row of
the `%.9f`-formatted matrix before labels are appended: the two `re.sub`
rewrites in source order. -/
def save_data_clustering_trim_row (s : String) : String :=
  String.mk (re_sub_trailing_zeros (re_sub_dot_zeros s.data))

/-- The interface state that the display-button logic manipulates: the
readiness flags, the enabled state of the two display buttons and whether
each display window currently holds a graph. -/
structure UIState where
  flags : ReadinessFlags
  window1_button_enabled : Bool
  window2_button_enabled : Bool
  display_window1 : Bool
  display_window2 : Bool
deriving DecidableEq

/-- Embedding of `display_data_clustering_enable` (source lines 766-778) as
a state update: when the gate holds, Display 1 is enabled and Display 2 is
enabled only when some display window is populated (otherwise its enabled
state is left as it was); when the gate fails, both are disabled. -/
def display_data_clustering_enable_update (s : UIState) : UIState :=
  if display_data_clustering_enable_cond s.flags then
    { s with window1_button_enabled := true,
             window2_button_enabled :=
               if s.display_window1 || s.display_window2 then true
               else s.window2_button_enabled }
  else
    { s with window1_button_enabled := false,
             window2_button_enabled := false }

/-- The flag state written by the reset block of `load_data` (source lines
228-237): every condition flag false. -/
def resetReadinessFlags : ReadinessFlags :=
  { data_imported := false, file_data_error := false, data_non_numbers := false,
    feature_values_non_numbers_entered := false,
    feature_values_non_numbers_entered_not_applicable := false,
    clustering_algorithm_selected := false, num_clusters_entered := false,
    num_clusters_not_applicable := false, dimension_selected := false }

/-- Embedding of one `load_data` run (source lines 188-274).  Before the
flag reset, the widget resets fire handlers synchronously: resetting the
non-numbers combo runs its index-0 branch when a policy was selected
(`nnReset` over-approximates that guard), resetting the algorithm combo
runs `clustering_algorithm_changed` exactly when an algorithm was selected,
and clearing the cluster-count text runs `num_clusters_changed` when the
text was nonempty (`numTextNonempty`), whose body acts only under the
not-yet-reset `data_imported`.  Then the flags are reset; a parse error
(`outcome = none`) sets `file_data_error` with no recompute, a successful
parse runs `process_data`, which ends by recomputing the button state with
the freshly derived flags `f`. -/
def load_reset_nn_combo (nnReset : Bool) (s : UIState) : UIState :=
  if nnReset then
    display_data_clustering_enable_update
      { s with flags := { s.flags with
          feature_values_non_numbers_entered := false,
          feature_values_non_numbers_entered_not_applicable := false } }
  else s

/-- The algorithm-combo reset inside `load_data`: `setCurrentIndex(0)` runs
`clustering_algorithm_changed` exactly when an algorithm was selected. -/
def load_reset_alg_combo (s1 : UIState) : UIState :=
  if s1.flags.clustering_algorithm_selected then
    display_data_clustering_enable_update
      { s1 with flags := { s1.flags with clustering_algorithm_selected := false } }
  else s1

/-- The cluster-count text reset inside `load_data`: `setText("")` runs
`num_clusters_changed` when the text was nonempty, and its body acts only
under the not-yet-reset `data_imported`. -/
def load_reset_num_clusters (numTextNonempty : Bool) (s2 : UIState) : UIState :=
  if numTextNonempty && s2.flags.data_imported then
    display_data_clustering_enable_update
      { s2 with flags := { s2.flags with num_clusters_entered := false } }
  else s2

def load_data_step (nnReset numTextNonempty : Bool)
    (outcome : Option ReadinessFlags) (s : UIState) : UIState :=
  let s3 := load_reset_num_clusters numTextNonempty
    (load_reset_alg_combo (load_reset_nn_combo nnReset s))
  let s4 := { s3 with flags := resetReadinessFlags }
  match outcome with
  | none => { s4 with flags := { resetReadinessFlags with file_data_error := true } }
  | some f => display_data_clustering_enable_update { s4 with flags := f }

/-- Embedding of the manual-mapping branch of
`data_non_numbers_option_changed` (source lines 539-588): both display
buttons are disabled first (lines 557-558); the `setText` of line 564 may
synchronously run `feature_values_non_numbers_changed`, which ends with a
recompute under intermediate flags `g`; the branch then finishes with its
own flag updates `f` and a final recompute. -/
def policy_manual_mapping_step (nested : Bool) (g f : ReadinessFlags)
    (s : UIState) : UIState :=
  let s1 := { s with window1_button_enabled := false,
                     window2_button_enabled := false }
  let s2 :=
    if nested then display_data_clustering_enable_update { s1 with flags := g }
    else s1
  display_data_clustering_enable_update { s2 with flags := f }

/-- The user-triggered events of the interface, at handler granularity.
`uiUpdate f` covers every handler that updates condition flags and ends by
calling `display_data_clustering_enable` (algorithm selection, cluster
count edits, dimension radio buttons, non-numeric value assignment,
`process_data` re-runs and the non-manual policy branches); the remaining
constructors embed the handlers with more structure. -/
inductive UIEvent where
  | uiUpdate : ReadinessFlags → UIEvent
  | policyManualMapping : Bool → ReadinessFlags → ReadinessFlags → UIEvent
  | loadFile : Bool → Bool → Option ReadinessFlags → UIEvent
  | clickDisplay1 : UIEvent
  | clickDisplay2 : UIEvent
  | closeDisplay1 : UIEvent
  | closeDisplay2 : UIEvent

/-- One interface step.  Clicks act only when the corresponding button is
enabled (Qt delivers clicks only to enabled buttons); `clickDisplay1`
embeds `display_data_clustering` for Display 1 (which enables the Display 2
button, line 923, and populates window 1), `clickDisplay2` the Display 2
branch; the close events embed `close_display_window` (source lines
1007-1050), which disables the Display 2 button when no window remains. -/
def uiStep (e : UIEvent) (s : UIState) : UIState :=
  match e with
  | UIEvent.uiUpdate f => display_data_clustering_enable_update { s with flags := f }
  | UIEvent.policyManualMapping nested g f => policy_manual_mapping_step nested g f s
  | UIEvent.loadFile b1 b2 outcome => load_data_step b1 b2 outcome s
  | UIEvent.clickDisplay1 =>
    if s.window1_button_enabled then
      { s with window2_button_enabled := true, display_window1 := true }
    else s
  | UIEvent.clickDisplay2 =>
    if s.window2_button_enabled then { s with display_window2 := true }
    else s
  | UIEvent.closeDisplay1 =>
    if s.display_window1 then
      let s1 := { s with display_window1 := false }
      (if !s1.display_window2 then { s1 with window2_button_enabled := false } else s1)
    else s
  | UIEvent.closeDisplay2 =>
    if s.display_window2 then
      let s1 := { s with display_window2 := false }
      (if !s1.display_window1 then { s1 with window2_button_enabled := false } else s1)
    else s

/-- The initial interface state (source lines 151-182): all flags false,
both display buttons disabled, no display window populated. -/
def initUIState : UIState :=
  { flags := resetReadinessFlags, window1_button_enabled := false,
    window2_button_enabled := false, display_window1 := false,
    display_window2 := false }

/-- The states the interface can reach from start-up by user events. -/
inductive ReachableUI : UIState → Prop where
  | init : ReachableUI initUIState
  | step : ∀ {s : UIState}, ReachableUI s → ∀ e : UIEvent, ReachableUI (uiStep e s)

/-- How many catalog entries of a group carry a given raw value (used to
state the claim that a column has a single empty-token entry). -/
def countRaw : List NNEntry → String → Nat
  | [], _ => 0
  | e :: es, w => (if e.raw = w then 1 else 0) + countRaw es w

/-- The row set of the first catalog entry carrying a given raw value
(the entry the source's linear search finds). -/
def rowsOfRaw : List NNEntry → String → List Nat
  | [], _ => []
  | e :: es, w => if e.raw = w then e.rows else rowsOfRaw es w

/-- The display-button invariant: an enabled Display 1 button implies the
readiness gate currently holds, and an enabled Display 2 button implies
both that the gate holds and that some display window is populated. -/
def ui_button_invariant (s : UIState) : Prop :=
  (s.window1_button_enabled = true →
    display_data_clustering_enable_cond s.flags = true) ∧
  (s.window2_button_enabled = true →
    display_data_clustering_enable_cond s.flags = true ∧
      (s.display_window1 = true ∨ s.display_window2 = true))

instance (s : UIState) : Decidable (ui_button_invariant s) := by
  unfold ui_button_invariant; infer_instance

/-- C1: the readiness gate computed by `display_data_clustering_enable` is
the pure conjunction of the seven condition groups exactly as §4.4 writes
it; being a function of the snapshot alone, two calls on identical
snapshots yield the same boolean, independent of call order or history. -/
theorem display_data_clustering_enable_matches_spec :
    ∀ f : ReadinessFlags,
      display_data_clustering_enable_cond f = ready_spec f := by
  intro f
  obtain ⟨a, b, c, d, e, g, h, i, j⟩ := f
  simp [display_data_clustering_enable_cond, ready_spec, Bool.and_assoc]

/-- C2 (code bug): a 2 x 2 table all of whose cells parse as the number 0 is
rectangular, has at least two rows and two columns and plainly contains
data, yet `load_data` reports "The file does not contain any data." —
`self.file_data.any()` is false for an all-zero array, so the empty-file
branch fires on data that exists. -/
theorem load_data_check_all_zero_table :
    load_data_check [[Cell.num 0, Cell.num 0], [Cell.num 0, Cell.num 0]] =
      LoadResult.emptyFile := by
  decide

/-- C3 (counterexample): a table of 2 rows and 3 columns has a feature count
of 3 after class-column removal, so per the claim the 3D option should be
offered; but `2 in self.attribute_data_all.shape` is true because the row
count is 2, and `process_data` disables the 3D button. -/
theorem process_data_dim_two_rows_disables_3d :
    (process_data_dim 2 3
      { button3D_enabled := true, button3D_checked := false,
        display_dimension := "", dimension_selected := false }).button3D_enabled
      = false := by
  decide

/-- C3 (amended): the 3D option is offered exactly when 2 occurs in neither
component of the pre-policy shape `(rows, cols)` of `attribute_data_all`
(feature count 2 or row count 2 both disable it); when infeasible the
button ends up disabled, and a previously checked 3D selection is cleared:
the dimension selection flag is dropped and `display_dimension` emptied. -/
theorem process_data_dim_spec :
    ∀ (rows cols : Nat) (s : DimState),
      ((process_data_dim rows cols s).button3D_enabled = true ↔
        ¬(rows = 2 ∨ cols = 2)) ∧
      ((rows = 2 ∨ cols = 2) → s.button3D_checked = true →
        (process_data_dim rows cols s).dimension_selected = false ∧
        (process_data_dim rows cols s).display_dimension = "" ∧
        (process_data_dim rows cols s).button3D_checked = false) := by
  intro rows cols s
  constructor
  · by_cases h : rows == 2 || cols == 2
    · simp only [process_data_dim, h, if_pos]
      constructor
      · intro hfalse
        exact absurd hfalse (by simp)
      · intro hno
        exact absurd (by simpa using h) hno
    · simp only [process_data_dim, h]
      simp only [Bool.or_eq_true, beq_iff_eq] at h
      simp [h]
  · intro hor hchecked
    have h2 : (rows == 2 || cols == 2) = true := by
      rcases hor with h | h <;> simp [h]
    simp [process_data_dim, h2, hchecked]

/-- C3 witness: instantiating the amended theorem at the counterexample
shape (2 rows, 3 features) and a state with 3D checked. -/
theorem process_data_dim_spec_witness :
    ((process_data_dim 2 3
        { button3D_enabled := true, button3D_checked := true,
          display_dimension := "3D", dimension_selected := true }).button3D_enabled
      = false) ∧
    ((process_data_dim 2 3
        { button3D_enabled := true, button3D_checked := true,
          display_dimension := "3D", dimension_selected := true }).dimension_selected
      = false) := by
  have h := process_data_dim_spec 2 3
    { button3D_enabled := true, button3D_checked := true,
      display_dimension := "3D", dimension_selected := true }
  refine ⟨?_, (h.2 (Or.inl rfl) rfl).1⟩
  by_contra hcon
  simp only [Bool.not_eq_false] at hcon
  exact (h.1.mp hcon) (Or.inl rfl)

/-- C8 (counterexample): the claim says exactly one algorithm is invoked
with a fixed minimum-samples parameter of 2, but the dispatch table gives
that parameter to two of the ten algorithms (HDBSCAN at line 810 and
OPTICS at line 838). -/
theorem min_samples_two_not_unique :
    ¬ (algorithmNames.countP usesFixedMinSamplesTwo = 1) := by
  decide

/-- C8 (amended): exactly two algorithms, HDBSCAN and OPTICS, are invoked
with a fixed minimum-samples parameter of 2, and for both of them no user
input (cluster-count text, table size) can change that value. -/
theorem min_samples_two_algorithms :
    algorithmNames.filter usesFixedMinSamplesTwo = ["HDBSCAN", "OPTICS"] ∧
    ∀ (num_clusters rows : Nat),
      display_data_clustering_dispatch "HDBSCAN" num_clusters rows =
        some (AlgCall.hdbscan 2) ∧
      display_data_clustering_dispatch "OPTICS" num_clusters rows =
        some (AlgCall.optics 2) := by
  exact ⟨by decide, fun _ _ => ⟨rfl, rfl⟩⟩

/-- C6 (code bug): canonicalizing the serialized row
`"1.000000000,3.500000000"` yields `"1,3"`, not the claimed `"1,3.5"`: in
the second cleanup regex the row-final alternative is captured by groups
3-4, which the replacement `\1\2` never references, so a row-final value
with a nonzero fraction loses its entire fractional part. -/
theorem trim_row_drops_row_final_fraction :
    save_data_clustering_trim_row "1.000000000,3.500000000" = "1,3" := by
  rfl

/-- A digit character other than `'0'` contributes a positive value. -/
theorem char_digit_pos (c : Char) (hd : c.isDigit = true) (hne : c ≠ '0') :
    1 ≤ c.toNat - '0'.toNat := by
  have hdd := hd
  simp only [Char.isDigit, Bool.and_eq_true, decide_eq_true_eq] at hdd
  obtain ⟨h1, h2⟩ := hdd
  have h48 : 48 ≤ c.val.toNat := UInt32.le_toNat_of_le (by decide) h1
  have hne48 : c.val.toNat ≠ 48 := by
    intro h
    apply hne
    apply Char.ext
    apply UInt32.ext
    simpa using h
  have h0 : Char.toNat '0' = 48 := rfl
  have hcv : c.toNat = c.val.toNat := rfl
  omega

/-- Once the running accumulator of the digit fold is positive it stays
positive. -/
theorem digitsToNat_foldl_pos (l : List Char) :
    ∀ acc : Nat, 1 ≤ acc →
      1 ≤ l.foldl (fun a c => a * 10 + (c.toNat - '0'.toNat)) acc := by
  induction l with
  | nil => intro acc h; simpa using h
  | cons c rest ih =>
    intro acc h
    simp only [List.foldl_cons]
    exact ih _ (by omega)

/-- `updateAt` never changes the length of a list. -/
theorem updateAt_length {α : Type} (l : List α) (i : Nat) (f : α → α) :
    (updateAt l i f).length = l.length := by
  induction l generalizing i with
  | nil => rfl
  | cons x xs ih =>
    cases i with
    | zero => rfl
    | succ n => simp [updateAt, ih]

/-- `setCell` never changes the number of rows. -/
theorem setCell_length {α : Type} (A : List (List α)) (r c : Nat) (v : α) :
    (setCell A r c v).length = A.length :=
  updateAt_length A r _

/-- A fold of row-count-preserving writes preserves the row count. -/
theorem foldl_length_preserved {α β : Type}
    (g : List (List α) → β → List (List α))
    (hg : ∀ (A : List (List α)) (b : β), (g A b).length = A.length) :
    ∀ (l : List β) (A : List (List α)), (l.foldl g A).length = A.length := by
  intro l
  induction l with
  | nil => intro A; rfl
  | cons b bs ih => intro A; simp only [List.foldl_cons]; rw [ih, hg]

/-- The zero-fill pass preserves the row count of the raw table. -/
theorem zeroFill_length (A : List (List String)) (nnv : List (List NNEntry)) :
    (zeroFill A nnv).length = A.length := by
  unfold zeroFill
  refine foldl_length_preserved _ ?_ nnv A
  intro A1 feature
  refine foldl_length_preserved _ ?_ feature A1
  intro A2 e
  unfold zeroFillEntry
  refine foldl_length_preserved _ ?_ e.rows A2
  intro A3 r
  exact setCell_length A3 r e.col "0"

/-- C4: the `clusterCountProvided` condition of `num_clusters_changed` is
true exactly when the entered digit text is a positive integer — nonempty
and not the numeral 0 — that does not exceed the row count of
`attribute_data_all`; and `attribute_data_all` keeps the row count of the
original table across every policy selection, so that row bound is the
pre-exclusion one. -/
theorem num_clusters_changed_cond_spec :
    (∀ (text : List Char) (rows : Nat),
      text.all Char.isDigit = true →
      (text = ['0'] ∨ text.head? ≠ some '0') →
      (num_clusters_changed_cond text rows = true ↔
        0 < digitsToNat text ∧ digitsToNat text ≤ rows)) ∧
    (∀ (s : SessionState) (idx : Nat),
      (data_non_numbers_option_changed_step idx s).1.attribute_data_all.length =
        s.attribute_data_all.length) := by
  constructor
  · intro text rows hdig hcanon
    cases text with
    | nil => simp [num_clusters_changed_cond, digitsToNat]
    | cons c rest =>
      by_cases h0 : (c :: rest : List Char) = ['0']
      · rw [h0]
        simp [num_clusters_changed_cond, digitsToNat]
      · have hc0 : c ≠ '0' := by
          rcases hcanon with h | h
          · exact absurd h h0
          · intro hcc
            exact h (by simp [hcc])
        have hcd : c.isDigit = true := by
          simp only [List.all_cons, Bool.and_eq_true] at hdig
          exact hdig.1
        have hpos : 0 < digitsToNat (c :: rest) := by
          have hstep := char_digit_pos c hcd hc0
          unfold digitsToNat
          simp only [List.foldl_cons]
          exact digitsToNat_foldl_pos rest _ (by omega)
        constructor
        · intro h
          refine ⟨hpos, ?_⟩
          simp only [num_clusters_changed_cond, Bool.and_eq_true,
            decide_eq_true_eq] at h
          exact h.2
        · rintro ⟨h1, h2⟩
          simp [num_clusters_changed_cond, h0, h2]
  · intro s idx
    rcases idx with _ | _ | _ | _ | _ | idx
    · rfl
    · exact zeroFill_length s.attribute_data_all s.non_number_values
    · rfl
    · rfl
    · rfl
    · rfl

/-- C4 witness: the text `"3"` with a 5-row table satisfies the condition,
via the theorem instantiated at that concrete input. -/
theorem num_clusters_changed_cond_spec_witness :
    num_clusters_changed_cond ['3'] 5 = true :=
  (num_clusters_changed_cond_spec.1 ['3'] 5 (by decide)
    (Or.inr (by decide))).mpr (by decide)

/-- Reading an `updateAt`: only the targeted position changes. -/
theorem updateAt_getElem? {α : Type} (l : List α) (i : Nat) (f : α → α) (j : Nat) :
    (updateAt l i f)[j]? = if j = i then l[j]?.map f else l[j]? := by
  induction l generalizing i j with
  | nil => simp [updateAt]
  | cons x xs ih =>
    cases i with
    | zero =>
      cases j with
      | zero => simp [updateAt]
      | succ m => simp [updateAt]
    | succ n =>
      cases j with
      | zero => simp [updateAt]
      | succ m =>
        simp only [updateAt, List.getElem?_cons_succ]
        rw [ih]
        by_cases h : m = n
        · rw [if_pos h, if_pos (by omega)]
        · rw [if_neg h, if_neg (by omega)]

/-- Reading a `setCell`: only the targeted cell changes, and only when it
exists. -/
theorem getCell_setCell {α : Type} (A : List (List α)) (r c : Nat) (v : α)
    (r' c' : Nat) :
    getCell (setCell A r c v) r' c' =
      if r' = r ∧ c' = c then (getCell A r' c').map (fun _ => v)
      else getCell A r' c' := by
  unfold getCell setCell
  rw [updateAt_getElem?]
  by_cases hr : r' = r
  · subst hr
    rw [if_pos rfl]
    cases A[r']? with
    | none =>
      by_cases hc : c' = c
      · simp [hc]
      · simp [hc]
    | some row =>
      simp only [Option.map_some', Option.some_bind]
      rw [updateAt_getElem?]
      by_cases hc : c' = c
      · simp [hc]
      · simp [hc]
  · rw [if_neg hr, if_neg (fun hh => hr hh.1)]

/-- Overwriting with a constant twice is the same as overwriting once. -/
theorem option_map_const_self {α : Type} (o : Option α) (v : α) :
    (o.map (fun _ => v)).map (fun _ => v) = o.map (fun _ => v) := by
  cases o <;> rfl

/-- The composed form of `option_map_const_self`, matching the normal form
`Option.map_map` produces. -/
theorem option_map_const_comp {α : Type} (o : Option α) (v : α) :
    o.map ((fun _ => v) ∘ (fun _ : α => v)) = o.map (fun _ => v) := by
  cases o <;> rfl

/-- Pointwise reading of the zero-writes for one entry's row set. -/
theorem getCell_foldl_setRows (rows : List Nat) (c : Nat)
    (A : List (List String)) (r' c' : Nat) :
    getCell (rows.foldl (fun a r => setCell a r c "0") A) r' c' =
      if r' ∈ rows ∧ c' = c then (getCell A r' c').map (fun _ => "0")
      else getCell A r' c' := by
  induction rows generalizing A with
  | nil => simp
  | cons r0 rs ih =>
    simp only [List.foldl_cons]
    rw [ih, getCell_setCell]
    by_cases h1 : r' ∈ rs ∧ c' = c
    · have hmem : r' ∈ r0 :: rs ∧ c' = c := ⟨List.mem_cons_of_mem _ h1.1, h1.2⟩
      rw [if_pos h1, if_pos hmem]
      by_cases h2 : r' = r0 ∧ c' = c
      · rw [if_pos h2, option_map_const_self]
      · rw [if_neg h2]
    · rw [if_neg h1]
      by_cases h2 : r' = r0 ∧ c' = c
      · have hmem : r' ∈ r0 :: rs ∧ c' = c := ⟨by simp [h2.1], h2.2⟩
        rw [if_pos h2, if_pos hmem]
      · have hmem : ¬ (r' ∈ r0 :: rs ∧ c' = c) := by
          rintro ⟨hm, hc⟩
          rcases List.mem_cons.mp hm with h | h
          · exact h2 ⟨h, hc⟩
          · exact h1 ⟨h, hc⟩
        rw [if_neg h2, if_neg hmem]

/-- Pointwise reading of the zero-fill writes of one catalog group. -/
theorem getCell_foldl_zeroFillEntry (es : List NNEntry)
    (A : List (List String)) (r' c' : Nat) :
    getCell (es.foldl zeroFillEntry A) r' c' =
      if ∃ e ∈ es, e.col = c' ∧ r' ∈ e.rows
      then (getCell A r' c').map (fun _ => "0") else getCell A r' c' := by
  induction es generalizing A with
  | nil => simp
  | cons e es ih =>
    simp only [List.foldl_cons]
    rw [ih]
    have he : zeroFillEntry A e =
        e.rows.foldl (fun a r => setCell a r e.col "0") A := rfl
    rw [he, getCell_foldl_setRows]
    by_cases h1 : ∃ x ∈ es, x.col = c' ∧ r' ∈ x.rows
    · have hcond : ∃ x ∈ e :: es, x.col = c' ∧ r' ∈ x.rows := by
        rcases h1 with ⟨x, hx, hp⟩
        exact ⟨x, List.mem_cons_of_mem _ hx, hp⟩
      rw [if_pos h1, if_pos hcond]
      by_cases h2 : r' ∈ e.rows ∧ c' = e.col
      · rw [if_pos h2, option_map_const_self]
      · rw [if_neg h2]
    · rw [if_neg h1]
      by_cases h2 : r' ∈ e.rows ∧ c' = e.col
      · have hcond : ∃ x ∈ e :: es, x.col = c' ∧ r' ∈ x.rows :=
          ⟨e, List.mem_cons_self e es, h2.2.symm, h2.1⟩
        rw [if_pos h2, if_pos hcond]
      · have hcond : ¬ ∃ x ∈ e :: es, x.col = c' ∧ r' ∈ x.rows := by
          rintro ⟨x, hx, hcol, hrow⟩
          rcases List.mem_cons.mp hx with h | h
          · subst h
            exact h2 ⟨hrow, hcol.symm⟩
          · exact h1 ⟨x, h, hcol, hrow⟩
        rw [if_neg h2, if_neg hcond]

/-- Pointwise reading of the full zero-fill pass. -/
theorem getCell_zeroFill (A : List (List String))
    (nnv : List (List NNEntry)) (r' c' : Nat) :
    getCell (zeroFill A nnv) r' c' =
      if ∃ feature ∈ nnv, ∃ e ∈ feature, e.col = c' ∧ r' ∈ e.rows
      then (getCell A r' c').map (fun _ => "0") else getCell A r' c' := by
  unfold zeroFill
  induction nnv generalizing A with
  | nil => simp
  | cons feature rest ih =>
    simp only [List.foldl_cons]
    rw [ih, getCell_foldl_zeroFillEntry]
    by_cases h1 : ∃ f ∈ rest, ∃ e ∈ f, e.col = c' ∧ r' ∈ e.rows
    · have hcond : ∃ f ∈ feature :: rest, ∃ e ∈ f, e.col = c' ∧ r' ∈ e.rows := by
        rcases h1 with ⟨f, hf, he⟩
        exact ⟨f, List.mem_cons_of_mem _ hf, he⟩
      rw [if_pos h1, if_pos hcond]
      by_cases h2 : ∃ e ∈ feature, e.col = c' ∧ r' ∈ e.rows
      · rw [if_pos h2, option_map_const_self]
      · rw [if_neg h2]
    · rw [if_neg h1]
      by_cases h2 : ∃ e ∈ feature, e.col = c' ∧ r' ∈ e.rows
      · have hcond : ∃ f ∈ feature :: rest, ∃ e ∈ f, e.col = c' ∧ r' ∈ e.rows :=
          ⟨feature, List.mem_cons_self _ _, h2⟩
        rw [if_pos h2, if_pos hcond]
      · have hcond : ¬ ∃ f ∈ feature :: rest, ∃ e ∈ f, e.col = c' ∧ r' ∈ e.rows := by
          rintro ⟨f, hf, he⟩
          rcases List.mem_cons.mp hf with h | h
          · subst h
            exact h2 he
          · exact h1 ⟨f, h, he⟩
        rw [if_neg h2, if_neg hcond]

/-- Two matrices with the same row count and the same cells are equal. -/
theorem matrixExt {α : Type} (A B : List (List α))
    (hlen : A.length = B.length)
    (h : ∀ r c, getCell A r c = getCell B r c) : A = B := by
  apply List.ext_getElem?
  intro r
  cases hA : A[r]? with
  | none =>
    cases hB : B[r]? with
    | none => rfl
    | some rowB =>
      exfalso
      have h1 : A.length ≤ r := List.getElem?_eq_none_iff.mp hA
      have h2 : ¬ B.length ≤ r := by
        intro hcon
        rw [List.getElem?_eq_none_iff.mpr hcon] at hB
        exact Option.noConfusion hB
      omega
  | some rowA =>
    cases hB : B[r]? with
    | none =>
      exfalso
      have h1 : B.length ≤ r := List.getElem?_eq_none_iff.mp hB
      have h2 : ¬ A.length ≤ r := by
        intro hcon
        rw [List.getElem?_eq_none_iff.mpr hcon] at hA
        exact Option.noConfusion hA
      omega
    | some rowB =>
      congr 1
      apply List.ext_getElem?
      intro c
      have hc := h r c
      unfold getCell at hc
      rw [hA, hB] at hc
      simpa using hc

/-- Re-running the zero-fill pass on its own output changes nothing. -/
theorem zeroFill_idem (A : List (List String)) (nnv : List (List NNEntry)) :
    zeroFill (zeroFill A nnv) nnv = zeroFill A nnv := by
  apply matrixExt
  · rw [zeroFill_length, zeroFill_length]
  · intro r c
    rw [getCell_zeroFill, getCell_zeroFill]
    by_cases h : ∃ feature ∈ nnv, ∃ e ∈ feature, e.col = c ∧ r ∈ e.rows
    · rw [if_pos h, if_pos h, option_map_const_self]
    · rw [if_neg h, if_neg h]

/-- C7: for a fixed session state each of the four non-numeric-handling
policies is idempotent — rebuilding under the same combo selection
reproduces the same matrix — and no policy selection mutates the catalog
`non_number_values`; in particular building under row exclusion, switching
to column exclusion and back reproduces the original row-exclusion matrix
bit for bit. -/
theorem policy_switch_pure :
    ∀ s : SessionState,
      (∀ idx : Nat,
        (data_non_numbers_option_changed_step idx s).1.non_number_values =
          s.non_number_values ∧
        (data_non_numbers_option_changed_step idx
            ((data_non_numbers_option_changed_step idx s).1)).2 =
          (data_non_numbers_option_changed_step idx s).2) ∧
      (data_non_numbers_option_changed_step 3
          ((data_non_numbers_option_changed_step 4
            ((data_non_numbers_option_changed_step 3 s).1)).1)).2 =
        (data_non_numbers_option_changed_step 3 s).2 := by
  intro s
  refine ⟨fun idx => ?_, rfl⟩
  rcases idx with _ | _ | _ | _ | _ | idx
  · exact ⟨rfl, rfl⟩
  · refine ⟨rfl, ?_⟩
    show BuiltMatrix.strMat
        (zeroFill (zeroFill s.attribute_data_all s.non_number_values)
          s.non_number_values) =
      BuiltMatrix.strMat (zeroFill s.attribute_data_all s.non_number_values)
    rw [zeroFill_idem]
  · exact ⟨rfl, rfl⟩
  · exact ⟨rfl, rfl⟩
  · exact ⟨rfl, rfl⟩
  · exact ⟨rfl, rfl⟩

/-- A dot-free string of digit-or-dot characters is a string of digits. -/
theorem all_digit_iff_nodot (t : List Char) :
    (decide (t.count '.' = 0) && t.all (fun c => c.isDigit || c == '.')) =
      t.all Char.isDigit := by
  rw [Bool.eq_iff_iff]
  simp only [Bool.and_eq_true, decide_eq_true_eq, List.all_eq_true,
    List.count_eq_zero, Bool.or_eq_true, beq_iff_eq]
  constructor
  · rintro ⟨hnod, hall⟩ c hc
    rcases hall c hc with h | h
    · exact h
    · exact absurd (h ▸ hc) hnod
  · intro hall
    refine ⟨?_, fun c hc => Or.inl (hall c hc)⟩
    intro hdot
    exact absurd (hall '.' hdot) (by decide)

/-- Removing the first dot leaves only digits exactly when the original
text has at most one dot and only digit-or-dot characters. -/
theorem removeFirst_all_digit (m : List Char) :
    (removeFirst '.' m).all Char.isDigit =
      (decide (m.count '.' ≤ 1) && m.all (fun c => c.isDigit || c == '.')) := by
  induction m with
  | nil => rfl
  | cons x t ih =>
    by_cases hx : x = '.'
    · subst hx
      have h1 : removeFirst '.' ('.' :: t) = t := by simp [removeFirst]
      rw [h1, List.all_cons]
      have h2 : List.count '.' ('.' :: t) = List.count '.' t + 1 := by
        simp [List.count_cons]
      rw [h2]
      have h3 : (('.' : Char).isDigit || ('.' : Char) == '.') = true := by decide
      rw [h3, Bool.true_and]
      have h4 : decide (List.count '.' t + 1 ≤ 1) = decide (List.count '.' t = 0) := by
        by_cases h : List.count '.' t = 0
        · rw [h]; rfl
        · rw [decide_eq_false h, decide_eq_false (by omega)]
      rw [h4, all_digit_iff_nodot]
    · have hxb : (x == '.') = false := by
        simp [hx]
      have h1 : removeFirst '.' (x :: t) = x :: removeFirst '.' t := by
        simp [removeFirst, hxb]
      have h2 : List.count '.' (x :: t) = List.count '.' t := by
        simp [List.count_cons, hx]
      rw [h1, List.all_cons, List.all_cons, h2, ih, hxb, Bool.or_false,
        Bool.and_left_comm]

/-- A nonempty all-digit string, described through the unsigned-numeral
vocabulary: no dot, at least one digit, only digit-or-dot characters. -/
theorem nonempty_all_digit (t : List Char) :
    (!t.isEmpty && t.all Char.isDigit) =
      (decide (t.count '.' = 0) && t.any Char.isDigit &&
        t.all (fun c => c.isDigit || c == '.')) := by
  rw [Bool.eq_iff_iff]
  simp only [Bool.and_eq_true, decide_eq_true_eq, List.all_eq_true,
    List.any_eq_true, List.count_eq_zero, Bool.or_eq_true, beq_iff_eq,
    Bool.not_eq_true', List.isEmpty_eq_false]
  constructor
  · rintro ⟨hne, hall⟩
    rcases List.exists_mem_of_ne_nil t hne with ⟨c, hc⟩
    refine ⟨⟨?_, ⟨c, hc, hall c hc⟩⟩, fun d hd => Or.inl (hall d hd)⟩
    intro hdot
    exact absurd (hall '.' hdot) (by decide)
  · rintro ⟨⟨hnod, c, hc, hcd⟩, hall⟩
    refine ⟨List.ne_nil_of_mem hc, fun d hd => ?_⟩
    rcases hall d hd with h | h
    · exact h
    · exact absurd (h ▸ hd) hnod

/-- The source's numerality test after stripping one dot coincides with the
specification's notion of a valid unsigned numeral. -/
theorem strIsNumeric_removeFirst (m : List Char) :
    strIsNumeric (removeFirst '.' m) = validUnsignedNumeral m := by
  cases m with
  | nil => rfl
  | cons x t =>
    by_cases hx : x = '.'
    · subst hx
      have h1 : removeFirst '.' ('.' :: t) = t := by simp [removeFirst]
      rw [h1]
      unfold strIsNumeric validUnsignedNumeral
      have h2 : List.count '.' ('.' :: t) = List.count '.' t + 1 := by
        simp [List.count_cons]
      rw [h2]
      have h3 : (('.' :: t).any Char.isDigit) = t.any Char.isDigit := by
        simp [List.any_cons]
      rw [h3]
      have h4 : (('.' :: t).all fun c => c.isDigit || c == '.') =
          (t.all fun c => c.isDigit || c == '.') := by
        simp [List.all_cons]
      rw [h4]
      have h5 : decide (List.count '.' t + 1 ≤ 1) = decide (List.count '.' t = 0) := by
        by_cases h : List.count '.' t = 0
        · rw [h]; rfl
        · rw [decide_eq_false h, decide_eq_false (by omega)]
      rw [h5, nonempty_all_digit]
    · have hxb : (x == '.') = false := by simp [hx]
      have h1 : removeFirst '.' (x :: t) = x :: removeFirst '.' t := by
        simp [removeFirst, hxb]
      rw [h1]
      unfold strIsNumeric validUnsignedNumeral
      have h2 : List.count '.' (x :: t) = List.count '.' t := by
        simp [List.count_cons, hx]
      rw [h2, List.all_cons, List.all_cons, List.any_cons]
      have h6 : (!(x :: removeFirst '.' t).isEmpty) = true := rfl
      rw [h6, Bool.true_and, hxb, Bool.or_false]
      cases hxd : x.isDigit with
      | false =>
        simp only [Bool.false_and, Bool.false_or, Bool.and_false]
      | true =>
        simp only [Bool.true_and, Bool.true_or, Bool.and_true]
        rw [removeFirst_all_digit]

/-- C5: every nonempty cell value that the catalog builder classifies is
non-numeric exactly when, after stripping one leading sign character, the
remainder is not a valid unsigned numeral; and the bare tokens `"-"`,
`"+"` and `"."` all classify as non-numeric. -/
theorem cellNonNumeric_matches_spec :
    (∀ l : List Char, l ≠ [] → cellNonNumeric l = specNonNumericCell l) ∧
    cellNonNumeric "-".data = true ∧ cellNonNumeric "+".data = true ∧
    cellNonNumeric ".".data = true := by
  refine ⟨?_, by decide, by decide, by decide⟩
  intro l hl
  cases l with
  | nil => exact absurd rfl hl
  | cons c rest =>
    have hcell : cellNonNumeric (c :: rest) =
        (if c == '-' then !strIsNumeric (removeFirst '.' rest)
         else if c == '+' then !strIsNumeric (removeFirst '.' rest)
         else !strIsNumeric (removeFirst '.' (c :: rest))) := rfl
    have hstrip : stripLeadingSign (c :: rest) =
        (if c == '-' || c == '+' then rest else c :: rest) := rfl
    rw [hcell]
    unfold specNonNumericCell
    rw [hstrip]
    by_cases h1 : c = '-'
    · subst h1
      simp [strIsNumeric_removeFirst]
    · by_cases h2 : c = '+'
      · subst h2
        simp [strIsNumeric_removeFirst]
      · simp [h1, h2, strIsNumeric_removeFirst]

/-- C5 witness: the theorem instantiated at the concrete nonempty cell
value `"abc"`, which both the source and the specification classify as
non-numeric. -/
theorem cellNonNumeric_matches_spec_witness :
    cellNonNumeric "abc".data = specNonNumericCell "abc".data ∧
    cellNonNumeric "abc".data = true :=
  ⟨cellNonNumeric_matches_spec.1 "abc".data (by decide), by decide⟩

/-- The linear search fails exactly when no entry carries the raw value. -/
theorem addRowToEntry_none_iff (es : List NNEntry) (v : String) (r : Nat) :
    addRowToEntry es v r = none ↔ countRaw es v = 0 := by
  induction es with
  | nil => simp [addRowToEntry, countRaw]
  | cons e es ih =>
    by_cases h : e.raw = v
    · have hb : (e.raw == v) = true := by simp [h]
      simp [addRowToEntry, countRaw, hb, h]
    · have hb : (e.raw == v) = false := by simp [h]
      simp [addRowToEntry, countRaw, hb, h, ih]

/-- A successful row merge keeps every raw-value count unchanged. -/
theorem addRowToEntry_countRaw (es : List NNEntry) (v : String) (r : Nat)
    (es2 : List NNEntry) (hs : addRowToEntry es v r = some es2) (w : String) :
    countRaw es2 w = countRaw es w := by
  induction es generalizing es2 with
  | nil => simp [addRowToEntry] at hs
  | cons e es ih =>
    by_cases h : e.raw = v
    · have hb : (e.raw == v) = true := by simp [h]
      simp only [addRowToEntry, hb, if_pos, Option.some.injEq] at hs
      subst hs
      simp [countRaw]
    · have hb : (e.raw == v) = false := by simp [h]
      simp only [addRowToEntry, hb, Bool.false_eq_true, if_false,
        Option.map_eq_some'] at hs
      rcases hs with ⟨es3, hs3, heq⟩
      subst heq
      simp [countRaw, ih es3 hs3]

/-- A successful row merge puts the row into the first entry carrying the
raw value. -/
theorem addRowToEntry_mem (es : List NNEntry) (v : String) (r : Nat)
    (es2 : List NNEntry) (hs : addRowToEntry es v r = some es2) :
    r ∈ rowsOfRaw es2 v := by
  induction es generalizing es2 with
  | nil => simp [addRowToEntry] at hs
  | cons e es ih =>
    by_cases h : e.raw = v
    · have hb : (e.raw == v) = true := by simp [h]
      simp only [addRowToEntry, hb, if_pos, Option.some.injEq] at hs
      subst hs
      simp [rowsOfRaw, h]
    · have hb : (e.raw == v) = false := by simp [h]
      simp only [addRowToEntry, hb, Bool.false_eq_true, if_false,
        Option.map_eq_some'] at hs
      rcases hs with ⟨es3, hs3, heq⟩
      subst heq
      simp [rowsOfRaw, h]
      exact ih es3 hs3

/-- A successful row merge only grows row sets: membership is preserved. -/
theorem addRowToEntry_pres (es : List NNEntry) (v : String) (r : Nat)
    (es2 : List NNEntry) (hs : addRowToEntry es v r = some es2)
    (w : String) (r' : Nat) (hm : r' ∈ rowsOfRaw es w) :
    r' ∈ rowsOfRaw es2 w := by
  induction es generalizing es2 with
  | nil => simp [addRowToEntry] at hs
  | cons e es ih =>
    by_cases h : e.raw = v
    · have hb : (e.raw == v) = true := by simp [h]
      simp only [addRowToEntry, hb, if_pos, Option.some.injEq] at hs
      subst hs
      by_cases hw : e.raw = w
      · simp only [rowsOfRaw, hw, if_pos] at hm ⊢
        exact List.mem_append_left _ hm
      · simp only [rowsOfRaw, hw, if_neg, if_false] at hm ⊢
        exact hm
    · have hb : (e.raw == v) = false := by simp [h]
      simp only [addRowToEntry, hb, Bool.false_eq_true, if_false,
        Option.map_eq_some'] at hs
      rcases hs with ⟨es3, hs3, heq⟩
      subst heq
      by_cases hw : e.raw = w
      · simp only [rowsOfRaw, hw, if_pos] at hm ⊢
        exact hm
      · simp only [rowsOfRaw, hw, if_neg, if_false] at hm ⊢
        exact ih es3 hs3 hm

/-- Counting raw values across an appended entry. -/
theorem countRaw_append (es : List NNEntry) (e0 : NNEntry) (w : String) :
    countRaw (es ++ [e0]) w = countRaw es w + (if e0.raw = w then 1 else 0) := by
  induction es with
  | nil => simp [countRaw]
  | cons e es ih => simp [countRaw, ih]; omega

/-- With no entry carrying the raw value, the row set read for it is
empty. -/
theorem rowsOfRaw_of_countRaw_zero (es : List NNEntry) (w : String)
    (h : countRaw es w = 0) : rowsOfRaw es w = [] := by
  induction es with
  | nil => rfl
  | cons e es ih =>
    simp only [countRaw] at h
    by_cases hw : e.raw = w
    · rw [if_pos hw] at h
      omega
    · rw [if_neg hw] at h
      simp only [rowsOfRaw, hw, if_neg, if_false]
      exact ih (by omega)

/-- Reading the row set across an appended entry. -/
theorem rowsOfRaw_append (es : List NNEntry) (e0 : NNEntry) (w : String) :
    rowsOfRaw (es ++ [e0]) w =
      if countRaw es w = 0 then (if e0.raw = w then e0.rows else [])
      else rowsOfRaw es w := by
  induction es with
  | nil => simp [rowsOfRaw, countRaw]
  | cons e es ih =>
    by_cases hw : e.raw = w
    · have h1 : countRaw (e :: es) w ≠ 0 := by
        simp [countRaw, hw]
      rw [if_neg h1]
      simp [rowsOfRaw, hw]
    · have h2 : countRaw (e :: es) w = countRaw es w := by
        simp [countRaw, hw]
      rw [h2]
      simp only [List.cons_append, rowsOfRaw, hw, if_neg, if_false]
      exact ih

/-- Counting raw values across one catalogue step. -/
theorem catAppend_countRaw (es : List NNEntry) (c : Nat) (v : String)
    (r : Nat) (w : String) :
    countRaw (catAppend es c v r) w =
      if v = w ∧ countRaw es v = 0 then countRaw es w + 1
      else countRaw es w := by
  unfold catAppend
  cases hadd : addRowToEntry es v r with
  | none =>
    have hz : countRaw es v = 0 := (addRowToEntry_none_iff es v r).mp hadd
    rw [countRaw_append]
    by_cases hw : v = w
    · rw [if_pos hw, if_pos ⟨hw, hz⟩]
    · rw [if_neg hw, if_neg (fun hh => hw hh.1)]
      omega
  | some es2 =>
    have hnz : ¬ countRaw es v = 0 := by
      intro hz
      rw [(addRowToEntry_none_iff es v r).mpr hz] at hadd
      exact Option.noConfusion hadd
    rw [addRowToEntry_countRaw es v r es2 hadd w,
      if_neg (fun hh => hnz hh.2)]

/-- One catalogue step registers the row under its raw value. -/
theorem catAppend_mem (es : List NNEntry) (c : Nat) (v : String) (r : Nat) :
    r ∈ rowsOfRaw (catAppend es c v r) v := by
  unfold catAppend
  cases hadd : addRowToEntry es v r with
  | none =>
    have hz : countRaw es v = 0 := (addRowToEntry_none_iff es v r).mp hadd
    rw [rowsOfRaw_append, if_pos hz, if_pos rfl]
    exact List.mem_singleton_self r
  | some es2 =>
    exact addRowToEntry_mem es v r es2 hadd

/-- One catalogue step preserves membership in every row set. -/
theorem catAppend_pres (es : List NNEntry) (c : Nat) (v : String) (r : Nat)
    (w : String) (r' : Nat) (hm : r' ∈ rowsOfRaw es w) :
    r' ∈ rowsOfRaw (catAppend es c v r) w := by
  unfold catAppend
  cases hadd : addRowToEntry es v r with
  | none =>
    rw [rowsOfRaw_append]
    by_cases hz : countRaw es w = 0
    · rw [rowsOfRaw_of_countRaw_zero es w hz] at hm
      exact absurd hm (List.not_mem_nil r')
    · rw [if_neg hz]
      exact hm
  | some es2 =>
    exact addRowToEntry_pres es v r es2 hadd w r' hm

/-- The catalog row loop keeps raw values unique. -/
theorem non_number_catalog_step_le_one (c : Nat) (es : List NNEntry)
    (rv : Nat × String) (huniq : ∀ w, countRaw es w ≤ 1) :
    ∀ w, countRaw (non_number_catalog_step c es rv) w ≤ 1 := by
  intro w
  unfold non_number_catalog_step
  have hgen : ∀ (v : String) (r : Nat), countRaw (catAppend es c v r) w ≤ 1 := by
    intro v r
    rw [catAppend_countRaw]
    by_cases hc : v = w ∧ countRaw es v = 0
    · rw [if_pos hc]
      have := hc.2
      rw [hc.1] at this
      omega
    · rw [if_neg hc]
      exact huniq w
  by_cases h1 : !fillerOrBlank rv.2
  · rw [if_pos h1]
    by_cases h2 : cellNonNumeric rv.2.data
    · rw [if_pos h2]
      exact hgen rv.2 rv.1
    · rw [if_neg h2]
      exact huniq w
  · rw [if_neg h1]
    exact hgen "" rv.1

/-- The catalog row loop never loses an established unique entry nor a row
registered in it. -/
theorem non_number_catalog_step_keeps (c : Nat) (es : List NNEntry)
    (rv : Nat × String) (w0 : String)
    (r0 : Nat) (hcount : countRaw es w0 = 1) (hmem : r0 ∈ rowsOfRaw es w0) :
    countRaw (non_number_catalog_step c es rv) w0 = 1 ∧
      r0 ∈ rowsOfRaw (non_number_catalog_step c es rv) w0 := by
  unfold non_number_catalog_step
  have hgen : ∀ (v : String) (r : Nat),
      countRaw (catAppend es c v r) w0 = 1 ∧
        r0 ∈ rowsOfRaw (catAppend es c v r) w0 := by
    intro v r
    refine ⟨?_, catAppend_pres es c v r w0 r0 hmem⟩
    rw [catAppend_countRaw]
    have hcond : ¬ (v = w0 ∧ countRaw es v = 0) := by
      rintro ⟨hv, hz⟩
      rw [hv, hcount] at hz
      exact Nat.noConfusion hz
    rw [if_neg hcond]
    exact hcount
  by_cases h1 : !fillerOrBlank rv.2
  · rw [if_pos h1]
    by_cases h2 : cellNonNumeric rv.2.data
    · rw [if_pos h2]
      exact hgen rv.2 rv.1
    · rw [if_neg h2]
      exact ⟨hcount, hmem⟩
  · rw [if_neg h1]
    exact hgen "" rv.1

/-- Folding the catalog row loop keeps raw values unique. -/
theorem catalog_foldl_le_one (c : Nat) (L : List (Nat × String)) :
    ∀ es : List NNEntry, (∀ w, countRaw es w ≤ 1) →
      ∀ w, countRaw (L.foldl (non_number_catalog_step c) es) w ≤ 1 := by
  induction L with
  | nil => intro es h w; exact h w
  | cons rv L ih =>
    intro es h w
    simp only [List.foldl_cons]
    exact ih _ (non_number_catalog_step_le_one c es rv h) w

/-- Folding the catalog row loop preserves an established unique entry and
its registered rows. -/
theorem catalog_foldl_keeps (c : Nat) (L : List (Nat × String)) :
    ∀ es : List NNEntry, (∀ w, countRaw es w ≤ 1) →
      ∀ (w0 : String) (r0 : Nat), countRaw es w0 = 1 →
        r0 ∈ rowsOfRaw es w0 →
        countRaw (L.foldl (non_number_catalog_step c) es) w0 = 1 ∧
          r0 ∈ rowsOfRaw (L.foldl (non_number_catalog_step c) es) w0 := by
  induction L with
  | nil => intro es _ w0 r0 h1 h2; exact ⟨h1, h2⟩
  | cons rv L ih =>
    intro es h w0 r0 h1 h2
    simp only [List.foldl_cons]
    have hstep := non_number_catalog_step_keeps c es rv w0 r0 h1 h2
    exact ih _ (non_number_catalog_step_le_one c es rv h) w0 r0 hstep.1 hstep.2

/-- Running the column loop over an enumerated suffix: a filler/blank cell
at relative position `r` ends up registered in a unique empty-token entry
of the resulting catalog group. -/
theorem buildCatalog_filler_aux (c : Nat) (col : List String) :
    ∀ (n : Nat) (es : List NNEntry), (∀ w, countRaw es w ≤ 1) →
      ∀ (r : Nat) (v : String), col[r]? = some v → fillerOrBlank v = true →
        countRaw ((col.enumFrom n).foldl (non_number_catalog_step c) es) "" = 1 ∧
        (n + r) ∈ rowsOfRaw ((col.enumFrom n).foldl (non_number_catalog_step c) es) "" := by
  induction col with
  | nil =>
    intro n es _ r v hr _
    simp at hr
  | cons v0 col ih =>
    intro n es h r v hr hful
    rw [List.enumFrom_cons]
    simp only [List.foldl_cons]
    cases r with
    | zero =>
      have hv : v = v0 := by
        rw [List.getElem?_cons_zero] at hr
        exact (Option.some.injEq _ _ ▸ hr).symm
      subst hv
      have hstep : non_number_catalog_step c es (n, v) = catAppend es c "" n := by
        unfold non_number_catalog_step
        rw [hful]
        rfl
      rw [hstep]
      have h1 : countRaw (catAppend es c "" n) "" = 1 := by
        rw [catAppend_countRaw]
        by_cases hz : countRaw es "" = 0
        · rw [if_pos ⟨rfl, hz⟩]
          omega
        · rw [if_neg (fun hh => hz hh.2)]
          have hle := h ""
          omega
      have h2 : n ∈ rowsOfRaw (catAppend es c "" n) "" := catAppend_mem es c "" n
      have huniq2 : ∀ w, countRaw (catAppend es c "" n) w ≤ 1 := by
        intro w
        rw [catAppend_countRaw]
        by_cases hc2 : ("" : String) = w ∧ countRaw es "" = 0
        · rw [if_pos hc2]
        
          have hz := hc2.2
          rw [hc2.1] at hz
          omega
        · rw [if_neg hc2]
          exact h w
      have hkeep := catalog_foldl_keeps c (col.enumFrom (n + 1)) _ huniq2 "" n h1 h2
      constructor
      · exact hkeep.1
      · have hn : n + 0 = n := Nat.add_zero n
        rw [hn]
        exact hkeep.2
    | succ i =>
      have hr2 : col[i]? = some v := by simpa using hr
      have huniq2 := non_number_catalog_step_le_one c es (n, v0) h
      have hmain := ih (n + 1) _ huniq2 i v hr2 hful
      refine ⟨hmain.1, ?_⟩
      have hn : n + (i + 1) = n + 1 + i := by omega
      rw [hn]
      exact hmain.2

/-- C9: in the catalog-building pass every cell whose raw text is blank or
one of the filler-sentinel forms `"-99999"` / `"-99999.0"` is blanked to
the empty token in `attribute_data_all`, and it is registered in that
column's single empty-token catalog entry — so such a value is only
remappable jointly with the other blank/filler cells of its column. -/
theorem filler_cells_single_empty_entry :
    ∀ (A : List (List String)) (r c : Nat) (row : List String) (v : String),
      A[r]? = some row → row[c]? = some v → fillerOrBlank v = true →
      getCell (blankFillerCells A) r c = some "" ∧
      countRaw (buildColumnCatalog c (columnOf A c)) "" = 1 ∧
      r ∈ rowsOfRaw (buildColumnCatalog c (columnOf A c)) "" := by
  intro A r c row v hA hrow hful
  have hcol : (columnOf A c)[r]? = some v := by
    unfold columnOf
    rw [List.getElem?_map, hA]
    simp only [Option.map_some', Option.some.injEq]
    rw [List.getD_eq_getElem?_getD, hrow]
    rfl
  have hmain := buildCatalog_filler_aux c (columnOf A c) 0 []
    (fun w => by simp [countRaw]) r v hcol hful
  refine ⟨?_, ?_, ?_⟩
  · unfold getCell blankFillerCells
    rw [List.getElem?_map, hA]
    simp only [Option.map_some', Option.some_bind, List.getElem?_map, hrow]
    simp [hful]
  · exact hmain.1
  · have hz : (0 : Nat) + r = r := Nat.zero_add r
    rw [hz] at hmain
    exact hmain.2

/-- C9 witness: the concrete table `[["-99999", "x"], ["", "1"]]` at cell
`(0, 0)`, whose raw text is the filler sentinel. -/
theorem filler_cells_single_empty_entry_witness :
    getCell (blankFillerCells [["-99999", "x"], ["", "1"]]) 0 0 = some "" ∧
    countRaw (buildColumnCatalog 0 (columnOf [["-99999", "x"], ["", "1"]] 0)) "" = 1 ∧
    0 ∈ rowsOfRaw (buildColumnCatalog 0 (columnOf [["-99999", "x"], ["", "1"]] 0)) "" :=
  filler_cells_single_empty_entry [["-99999", "x"], ["", "1"]] 0 0
    ["-99999", "x"] "-99999" rfl rfl (by decide)

/-- The readiness gate fails whenever no algorithm is selected. -/
theorem gate_false_of_no_alg (f : ReadinessFlags)
    (h : f.clustering_algorithm_selected = false) :
    display_data_clustering_enable_cond f = false := by
  unfold display_data_clustering_enable_cond
  rw [h]
  simp

/-- When the gate fails, the recompute disables both display buttons. -/
theorem enable_update_gate_false (t : UIState)
    (h : display_data_clustering_enable_cond t.flags = false) :
    display_data_clustering_enable_update t =
      { t with window1_button_enabled := false,
               window2_button_enabled := false } := by
  unfold display_data_clustering_enable_update
  rw [h]
  rfl

/-- A state with both display buttons disabled satisfies the button
invariant vacuously. -/
theorem inv_both_disabled (t : UIState) :
    ui_button_invariant
      { t with window1_button_enabled := false,
               window2_button_enabled := false } := by
  constructor
  · intro h
    exact Bool.noConfusion h
  · intro h
    exact Bool.noConfusion h

/-- The recompute establishes the button invariant, provided an enabled
Display 2 button already implied a populated window. -/
theorem enable_update_inv (t : UIState)
    (h2 : t.window2_button_enabled = true →
      (t.display_window1 = true ∨ t.display_window2 = true)) :
    ui_button_invariant (display_data_clustering_enable_update t) := by
  unfold display_data_clustering_enable_update
  by_cases hg : display_data_clustering_enable_cond t.flags = true
  · rw [if_pos hg]
    cases hw : t.display_window1 || t.display_window2 with
    | true =>
      constructor
      · intro _
        exact hg
      · intro _
        refine ⟨hg, ?_⟩
        have := hw
        simp only [Bool.or_eq_true] at this
        exact this
    | false =>
      constructor
      · intro _
        exact hg
      · intro hb2
        have hb2t : t.window2_button_enabled = true := by
          simpa using hb2
        exact ⟨hg, h2 hb2t⟩
  · rw [if_neg hg]
    exact inv_both_disabled t

/-- Any enabled Display 1 button requires a selected algorithm (through the
gate), so without one the invariant forces both buttons off. -/
theorem buttons_off_of_no_alg (s : UIState) (hinv : ui_button_invariant s)
    (halg : s.flags.clustering_algorithm_selected = false) :
    s.window1_button_enabled = false ∧ s.window2_button_enabled = false := by
  have hg := gate_false_of_no_alg s.flags halg
  constructor
  · cases hb : s.window1_button_enabled with
    | false => rfl
    | true =>
      have := hinv.1 hb
      rw [hg] at this
      exact Bool.noConfusion this
  · cases hb : s.window2_button_enabled with
    | false => rfl
    | true =>
      have := (hinv.2 hb).1
      rw [hg] at this
      exact Bool.noConfusion this

/-- The non-numbers-combo reset stage preserves the button invariant. -/
theorem load_reset_nn_combo_inv (b : Bool) (s : UIState)
    (hinv : ui_button_invariant s) :
    ui_button_invariant (load_reset_nn_combo b s) := by
  unfold load_reset_nn_combo
  cases b with
  | false => exact hinv
  | true =>
    apply enable_update_inv
    intro hb2
    exact (hinv.2 hb2).2

/-- The non-numbers-combo reset stage does not touch the algorithm flag. -/
theorem load_reset_nn_combo_alg (b : Bool) (s : UIState) :
    (load_reset_nn_combo b s).flags.clustering_algorithm_selected =
      s.flags.clustering_algorithm_selected := by
  unfold load_reset_nn_combo display_data_clustering_enable_update
  cases b with
  | false => rfl
  | true =>
    by_cases hg : display_data_clustering_enable_cond
        { s.flags with
            feature_values_non_numbers_entered := false,
            feature_values_non_numbers_entered_not_applicable := false } = true
    · rw [if_pos rfl, if_pos hg]
    · rw [if_pos rfl, if_neg hg]

/-- After the algorithm-combo reset stage both display buttons are off and
no algorithm is selected. -/
theorem load_reset_alg_combo_off (s1 : UIState)
    (hinv : ui_button_invariant s1) :
    (load_reset_alg_combo s1).window1_button_enabled = false ∧
    (load_reset_alg_combo s1).window2_button_enabled = false ∧
    (load_reset_alg_combo s1).flags.clustering_algorithm_selected = false := by
  unfold load_reset_alg_combo
  cases halg : s1.flags.clustering_algorithm_selected with
  | false =>
    rcases buttons_off_of_no_alg s1 hinv halg with ⟨h1, h2⟩
    exact ⟨h1, h2, halg⟩
  | true =>
    rw [if_pos rfl]
    rw [enable_update_gate_false _ (gate_false_of_no_alg _ rfl)]
    exact ⟨rfl, rfl, rfl⟩

/-- The cluster-count reset stage keeps both buttons off when no algorithm
is selected. -/
theorem load_reset_num_clusters_off (b : Bool) (s2 : UIState)
    (h1 : s2.window1_button_enabled = false)
    (h2 : s2.window2_button_enabled = false)
    (halg : s2.flags.clustering_algorithm_selected = false) :
    (load_reset_num_clusters b s2).window1_button_enabled = false ∧
    (load_reset_num_clusters b s2).window2_button_enabled = false := by
  unfold load_reset_num_clusters
  cases hcond : b && s2.flags.data_imported with
  | false => exact ⟨h1, h2⟩
  | true =>
    rw [if_pos rfl]
    rw [enable_update_gate_false
      { s2 with flags := { s2.flags with num_clusters_entered := false } }
      (gate_false_of_no_alg
        { s2.flags with num_clusters_entered := false } halg)]
    exact ⟨rfl, rfl⟩

/-- One full `load_data` run preserves the button invariant: the widget
resets that fire before the parse leave both buttons disabled (the gate
needs an algorithm selection, and resetting it recomputes), so the
error path ends with both buttons off and the success path recomputes. -/
theorem load_data_step_inv (b1 b2 : Bool) (outcome : Option ReadinessFlags)
    (s : UIState) (hinv : ui_button_invariant s) :
    ui_button_invariant (load_data_step b1 b2 outcome s) := by
  have hinv1 := load_reset_nn_combo_inv b1 s hinv
  rcases load_reset_alg_combo_off (load_reset_nn_combo b1 s) hinv1 with
    ⟨ha1, ha2, ha3⟩
  rcases load_reset_num_clusters_off b2 (load_reset_alg_combo (load_reset_nn_combo b1 s))
    ha1 ha2 ha3 with ⟨hb1off, hb2off⟩
  unfold load_data_step
  cases outcome with
  | none =>
    constructor
    · intro h
      rw [hb1off] at h
      exact Bool.noConfusion h
    · intro h
      rw [hb2off] at h
      exact Bool.noConfusion h
  | some f =>
    apply enable_update_inv
    intro hb2
    rw [hb2off] at hb2
    exact Bool.noConfusion hb2

/-- Every reachable interface state satisfies the display-button
invariant. -/
theorem ui_button_invariant_reachable (s : UIState) (h : ReachableUI s) :
    ui_button_invariant s := by
  induction h with
  | init =>
    constructor
    · intro h1
      exact Bool.noConfusion h1
    · intro h2
      exact Bool.noConfusion h2
  | @step t ht e ih =>
    cases e with
    | uiUpdate f =>
      apply enable_update_inv
      intro hb2
      exact (ih.2 hb2).2
    | policyManualMapping nested g f =>
      show ui_button_invariant (policy_manual_mapping_step nested g f t)
      unfold policy_manual_mapping_step
      cases nested with
      | false =>
        apply enable_update_inv
        intro hb2
        exact Bool.noConfusion hb2
      | true =>
        apply enable_update_inv
        intro hb2
        have hinv2 := enable_update_inv
          { flags := g, window1_button_enabled := false,
            window2_button_enabled := false,
            display_window1 := t.display_window1,
            display_window2 := t.display_window2 }
          (fun hcon => Bool.noConfusion hcon)
        exact (hinv2.2 hb2).2
    | loadFile b1 b2 outcome =>
      exact load_data_step_inv b1 b2 outcome t ih
    | clickDisplay1 =>
      show ui_button_invariant
        (if t.window1_button_enabled then
          { t with window2_button_enabled := true, display_window1 := true }
         else t)
      cases hb : t.window1_button_enabled with
      | false =>
        simp only [Bool.false_eq_true, if_false]
        exact ih
      | true =>
        rw [if_pos rfl]
        constructor
        · intro _
          exact ih.1 hb
        · intro _
          exact ⟨ih.1 hb, Or.inl rfl⟩
    | clickDisplay2 =>
      show ui_button_invariant
        (if t.window2_button_enabled then { t with display_window2 := true }
         else t)
      cases hb : t.window2_button_enabled with
      | false =>
        simp only [Bool.false_eq_true, if_false]
        exact ih
      | true =>
        rw [if_pos rfl]
        constructor
        · intro h1
          exact ih.1 h1
        · intro _
          exact ⟨(ih.2 hb).1, Or.inr rfl⟩
    | closeDisplay1 =>
      show ui_button_invariant (uiStep UIEvent.closeDisplay1 t)
      unfold uiStep
      cases hw1 : t.display_window1 with
      | false =>
        simp only [Bool.false_eq_true, if_false]
        exact ih
      | true =>
        rw [if_pos rfl]
        cases hw2 : t.display_window2 with
        | false =>
          simp only [Bool.not_false, if_pos]
          constructor
          · intro h1
            exact ih.1 h1
          · intro h2
            exact Bool.noConfusion h2
        | true =>
          simp only [Bool.not_true, Bool.false_eq_true, if_false]
          constructor
          · intro h1
            exact ih.1 h1
          · intro h2
            exact ⟨(ih.2 h2).1, Or.inr rfl⟩
    | closeDisplay2 =>
      show ui_button_invariant (uiStep UIEvent.closeDisplay2 t)
      unfold uiStep
      cases hw2 : t.display_window2 with
      | false =>
        simp only [Bool.false_eq_true, if_false]
        exact ih
      | true =>
        rw [if_pos rfl]
        cases hw1 : t.display_window1 with
        | false =>
          simp only [Bool.not_false, if_pos]
          constructor
          · intro h1
            exact ih.1 h1
          · intro h2
            exact Bool.noConfusion h2
        | true =>
          simp only [Bool.not_true, Bool.false_eq_true, if_false]
          constructor
          · intro h1
            exact ih.1 h1
          · intro h2
            exact ⟨(ih.2 h2).1, Or.inl rfl⟩

/-- C10: in every reachable interface state, the Display 2 trigger is
enabled only when the readiness gate holds and at least one display window
is already populated; consequently, with no window populated Display 2 is
disabled, and the first clustering run of a session can only go to
Display 1. -/
theorem display2_button_needs_gate_and_window :
    ∀ s : UIState, ReachableUI s → s.window2_button_enabled = true →
      display_data_clustering_enable_cond s.flags = true ∧
      (s.display_window1 = true ∨ s.display_window2 = true) :=
  fun s h hb => (ui_button_invariant_reachable s h).2 hb

/-- C10 witness: after loading valid data, selecting an algorithm, a
cluster count and a dimensionality (one flag update making the gate true)
and clicking Display 1, the Display 2 button is enabled and the theorem's
conclusion holds at that concrete reachable state. -/
theorem display2_button_needs_gate_and_window_witness :
    (uiStep UIEvent.clickDisplay1
        (uiStep (UIEvent.uiUpdate
          { data_imported := true, file_data_error := false,
            data_non_numbers := false,
            feature_values_non_numbers_entered := false,
            feature_values_non_numbers_entered_not_applicable := false,
            clustering_algorithm_selected := true, num_clusters_entered := true,
            num_clusters_not_applicable := false, dimension_selected := true })
          initUIState)).window2_button_enabled = true ∧
    display_data_clustering_enable_cond
      (uiStep UIEvent.clickDisplay1
        (uiStep (UIEvent.uiUpdate
          { data_imported := true, file_data_error := false,
            data_non_numbers := false,
            feature_values_non_numbers_entered := false,
            feature_values_non_numbers_entered_not_applicable := false,
            clustering_algorithm_selected := true, num_clusters_entered := true,
            num_clusters_not_applicable := false, dimension_selected := true })
          initUIState)).flags = true := by
  refine ⟨by decide, ?_⟩
  exact (display2_button_needs_gate_and_window _
    (ReachableUI.step (ReachableUI.step ReachableUI.init _) UIEvent.clickDisplay1)
    (by decide)).1
